import Mathlib

/-!
Verification of the i128 hi/lo codec of the price-oracle client
(`src/utils/i128-helper.js`, in both of its revisions: the BigNumber-based
one and the BigInt-based one), together with the `convertToI128ScVal`
wrapper of the client module.  Arbitrary-precision integers are embedded as
`Int`; the decimal rendering and decimal parsing performed by the JavaScript
number types are modelled explicitly, so the codec is verified down to its
decimal-string interface.
-/

/-- Big-endian decimal digits of a natural number, with explicit recursion
fuel (any fuel at least the number itself is enough).  Models the decimal
rendering loop behind `BigNumber#toFixed` and `BigInt#toString` for integer
values. -/
def decDigits : Nat → Nat → List Nat
  | 0, _ => []
  | fuel + 1, n => if n < 10 then [n] else decDigits fuel (n / 10) ++ [n % 10]

/-- Decimal string of a natural number: no sign, no leading zeros. -/
def natToDecString (n : Nat) : String :=
  String.mk ((decDigits (n + 1) n).map Nat.digitChar)

/-- Signed decimal rendering of an integer, as produced by
`BigNumber#toFixed` on integral values and by `BigInt#toString`: a leading
`-` for negative values, no `+`, no leading zeros. -/
def intToDecString (i : Int) : String :=
  if i < 0 then "-" ++ natToDecString i.natAbs else natToDecString i.natAbs

/-- Numeric value of a decimal digit character, `none` for a non-digit. -/
def decDigit? (c : Char) : Option Nat :=
  if c.isDigit then some (c.toNat - 48) else none

/-- Accumulating decimal evaluation of a character list; `none` at the first
non-digit character. -/
def parseDigitsAux : List Char → Nat → Option Nat
  | [], acc => some acc
  | c :: cs, acc =>
    match decDigit? c with
    | some d => parseDigitsAux cs (acc * 10 + d)
    | none => none

/-- Parse a non-empty, all-digit character list as a natural number. -/
def parseUnsignedDec : List Char → Option Nat
  | [] => none
  | c :: cs => parseDigitsAux (c :: cs) 0

/-- Parse a signed base-10 integer literal: an optional `-` or `+` sign
followed by at least one decimal digit.  This is the integer fragment
accepted by both `new BigNumber(string)` and `BigInt(string)`. -/
def parseSignedDec (s : String) : Option Int :=
  match s.data with
  | [] => none
  | c :: cs =>
    if c = '-' then (parseUnsignedDec cs).map (fun n => -(n : Int))
    else if c = '+' then (parseUnsignedDec cs).map (fun n => (n : Int))
    else (parseUnsignedDec (c :: cs)).map (fun n => (n : Int))

/-- The restriction of `new BigNumber(string)` to the signed decimal
integer fragment.  Faithful on its modelled domain: a `[+-]?digits` string
yields its exact integer value, and a string bignumber.js maps to the NaN
BigNumber without throwing (the empty string, or a non-numeric string such
as "abc") yields `none`.  Strings the real constructor accepts with a
non-integer or non-decimal meaning ("1.5", "1e5", "0x10", "Infinity",
whitespace-padded input) lie outside this fragment; no theorem below
evaluates the codec on such a string. -/
def parseBigNumber (s : String) : Option Int := parseSignedDec s

/-- The restriction of `BigInt(string)` to the signed decimal integer
fragment.  Faithful on its modelled domain: the empty string evaluates to
`0n`, a `[+-]?digits` string to its exact value, and a string that is not a
BigInt literal at all (such as "abc") throws a `SyntaxError`, here `none`.
`BigInt`'s whitespace trimming and its `0x`/`0o`/`0b` literals lie outside
this fragment; no theorem below evaluates the codec on such a string. -/
def parseBigIntString (s : String) : Option Int :=
  if s.data = [] then some 0 else parseSignedDec s

/-- The `{hi, lo}` pair of decimal strings handled by the codec. -/
structure HiLo where
  hi : String
  lo : String
deriving DecidableEq

namespace BigNumberRev

/-- `TWO_POW_64` of the BigNumber revision (`new BigNumber(2).pow(64)`). -/
def TWO_POW_64 : Int := (2 : Int) ^ (64 : Nat)

/-- `i128ToHiLo` of the BigNumber revision: `value.modulo(TWO_POW_64)` and
`value.idiv(TWO_POW_64)` both truncate toward zero (BigNumber's default
`MODULO_MODE` is `ROUND_DOWN`, pairing with `idiv`), rendered by
`toFixed`. -/
def i128ToHiLo (value : Int) : HiLo :=
  let lo := intToDecString (value.tmod TWO_POW_64)
  let hi := intToDecString (value.tdiv TWO_POW_64)
  { hi := hi, lo := lo }

/-- `hiLoToI128` of the BigNumber revision: `BigNumber(hi) * 2^64 +
BigNumber(lo)`.  A malformed argument produces the `NaN` BigNumber, which
propagates through `times` and `plus`; `NaN` is modelled as `none`. -/
def hiLoToI128 (hi lo : String) : Option Int :=
  match parseBigNumber hi, parseBigNumber lo with
  | some hiPart, some loPart => some (hiPart * TWO_POW_64 + loPart)
  | _, _ => none

end BigNumberRev

namespace BigIntRev

/-- `TWO_POW_64` of the BigInt revision (`2n ** 64n`). -/
def TWO_POW_64 : Int := (2 : Int) ^ (64 : Nat)

/-- `i128ToHiLo` of the BigInt revision: `%` and `/` on `BigInt` truncate
toward zero, rendered by `toString`. -/
def i128ToHiLo (value : Int) : HiLo :=
  let lo := intToDecString (value.tmod TWO_POW_64)
  let hi := intToDecString (value.tdiv TWO_POW_64)
  { hi := hi, lo := lo }

/-- `hiLoToI128` of the BigInt revision: `BigInt(hi) * 2^64 + BigInt(lo)`.
`BigInt(string)` throws a `SyntaxError` on a malformed argument, modelled as
`Except.error ()`. -/
def hiLoToI128 (hi lo : String) : Except Unit Int :=
  match parseBigIntString hi, parseBigIntString lo with
  | some hiPart, some loPart => Except.ok (hiPart * TWO_POW_64 + loPart)
  | _, _ => Except.error ()

end BigIntRev

/-- A JavaScript argument as received by `convertToI128ScVal`: either a
nullish value (`null` or `undefined`) or a numeric value. -/
inductive JsValue where
  | nullish
  | num (v : Int)
deriving DecidableEq

/-- JavaScript truthiness of such an argument: `null`, `undefined` and `0`
are falsy; every non-zero number is truthy. -/
def jsTruthy : JsValue → Bool
  | .nullish => false
  | .num v => v != 0

/-- The hi/lo content of the i128 `ScVal` built by `convertToI128ScVal`
(`value ? i128ToHiLo(value) : {hi: '0', lo: '0'}` in the client module); the
surrounding `xdr.ScVal.scvI128`/`Int128Parts` wrapper is the external xdr
library and is not modelled. -/
def convertToI128ScVal : JsValue → HiLo
  | .nullish => { hi := "0", lo := "0" }
  | .num v => if v != 0 then BigNumberRev.i128ToHiLo v else { hi := "0", lo := "0" }

theorem decDigits_ne_nil (fuel n : Nat) : decDigits (fuel + 1) n ≠ [] := by
  unfold decDigits
  split
  · simp
  · simp

theorem decDigits_lt_ten : ∀ fuel n d, d ∈ decDigits fuel n → d < 10 := by
  intro fuel
  induction fuel with
  | zero => intro n d h; simp [decDigits] at h
  | succ fuel ih =>
    intro n d h
    unfold decDigits at h
    split at h
    · simp at h; omega
    · rw [List.mem_append] at h
      rcases h with h | h
      · exact ih _ _ h
      · simp at h; omega

theorem decDigits_foldl : ∀ fuel n, n ≤ fuel →
    (decDigits (fuel + 1) n).foldl (fun a d => a * 10 + d) 0 = n := by
  intro fuel
  induction fuel with
  | zero =>
    intro n hn
    have : n = 0 := by omega
    subst this
    simp [decDigits]
  | succ fuel ih =>
    intro n hn
    unfold decDigits
    split
    · simp
    · rename_i hge
      rw [List.foldl_append]
      have hd : n / 10 ≤ fuel := by omega
      rw [ih _ hd]
      simp
      omega

theorem decDigit?_digitChar : ∀ d, d < 10 → decDigit? (Nat.digitChar d) = some d := by decide

theorem digitChar_ne_dash : ∀ d, d < 10 → ¬(Nat.digitChar d = '-' ∨ Nat.digitChar d = '+') := by decide

theorem parseDigitsAux_map : ∀ (ds : List Nat) (acc : Nat), (∀ d ∈ ds, d < 10) →
    parseDigitsAux (ds.map Nat.digitChar) acc = some (ds.foldl (fun a d => a * 10 + d) acc) := by
  intro ds
  induction ds with
  | nil => intro acc _; simp [parseDigitsAux]
  | cons d ds ih =>
    intro acc hlt
    have hd : d < 10 := hlt d (List.mem_cons_self d ds)
    simp only [List.map_cons, parseDigitsAux, decDigit?_digitChar d hd]
    rw [ih (acc * 10 + d) (fun x hx => hlt x (List.mem_cons_of_mem d hx))]
    simp

theorem parseUnsignedDec_natToDecString (n : Nat) :
    parseUnsignedDec (natToDecString n).data = some n := by
  have hne := decDigits_ne_nil n n
  have hlt := fun d h => decDigits_lt_ten (n + 1) n d h
  have hfold := decDigits_foldl n n (Nat.le_refl n)
  unfold natToDecString
  cases h : decDigits (n + 1) n with
  | nil => exact absurd h hne
  | cons d ds =>
    rw [h] at hfold
    have hlt' : ∀ x ∈ d :: ds, x < 10 := by
      intro x hx; exact hlt x (h ▸ hx)
    show parseUnsignedDec ((d :: ds).map Nat.digitChar) = some n
    simp only [List.map_cons, parseUnsignedDec]
    have := parseDigitsAux_map (d :: ds) 0 hlt'
    simp only [List.map_cons] at this
    rw [this, hfold]

theorem natToDecString_head_digit (n : Nat) :
    ∃ d ds, (natToDecString n).data = Nat.digitChar d :: List.map Nat.digitChar ds ∧ d < 10 := by
  have hne := decDigits_ne_nil n n
  cases h : decDigits (n + 1) n with
  | nil => exact absurd h hne
  | cons d ds =>
    refine ⟨d, ds, ?_, decDigits_lt_ten (n + 1) n d (h ▸ List.mem_cons_self d ds)⟩
    show ((decDigits (n + 1) n).map Nat.digitChar) = _
    rw [h, List.map_cons]

theorem parseSignedDec_intToDecString (i : Int) :
    parseSignedDec (intToDecString i) = some i := by
  unfold intToDecString
  split
  · rename_i hneg
    have habs : ((i.natAbs : Int)) = -i := by omega
    show parseSignedDec ("-" ++ natToDecString i.natAbs) = some i
    have hdata : ("-" ++ natToDecString i.natAbs).data = '-' :: (natToDecString i.natAbs).data := rfl
    unfold parseSignedDec
    rw [hdata]
    simp only [if_pos rfl]
    rw [parseUnsignedDec_natToDecString]
    simp [habs]
  · rename_i hpos
    have habs : ((i.natAbs : Int)) = i := by omega
    obtain ⟨d, ds, hdata, hd⟩ := natToDecString_head_digit i.natAbs
    have hnd := digitChar_ne_dash d hd
    unfold parseSignedDec
    rw [hdata]
    simp only [if_neg (fun h => hnd (Or.inl h)), if_neg (fun h => hnd (Or.inr h))]
    have := parseUnsignedDec_natToDecString i.natAbs
    rw [hdata] at this
    rw [this]
    simp [habs]

theorem intToDecString_data_ne_nil (i : Int) : (intToDecString i).data ≠ [] := by
  unfold intToDecString
  split
  · show ('-' :: (natToDecString i.natAbs).data) ≠ []
    simp
  · obtain ⟨d, ds, hdata, _⟩ := natToDecString_head_digit i.natAbs
    rw [hdata]
    simp

theorem parseBigIntString_intToDecString (i : Int) :
    parseBigIntString (intToDecString i) = some i := by
  unfold parseBigIntString
  rw [if_neg (intToDecString_data_ne_nil i)]
  exact parseSignedDec_intToDecString i

theorem i128ToHiLo_hi (v : Int) :
    (BigNumberRev.i128ToHiLo v).hi = intToDecString (v.tdiv BigNumberRev.TWO_POW_64) := rfl

theorem i128ToHiLo_lo (v : Int) :
    (BigNumberRev.i128ToHiLo v).lo = intToDecString (v.tmod BigNumberRev.TWO_POW_64) := rfl

theorem i128ToHiLo_revisions_eq : BigNumberRev.i128ToHiLo = BigIntRev.i128ToHiLo := rfl

theorem hiLo_roundtrip_bn (v : Int) :
    BigNumberRev.hiLoToI128 (BigNumberRev.i128ToHiLo v).hi (BigNumberRev.i128ToHiLo v).lo
      = some v := by
  rw [i128ToHiLo_hi, i128ToHiLo_lo]
  unfold BigNumberRev.hiLoToI128 parseBigNumber
  rw [parseSignedDec_intToDecString, parseSignedDec_intToDecString]
  show some (v.tdiv BigNumberRev.TWO_POW_64 * BigNumberRev.TWO_POW_64
      + v.tmod BigNumberRev.TWO_POW_64) = some v
  rw [Int.tdiv_add_tmod']

theorem hiLo_roundtrip_bi (v : Int) :
    BigIntRev.hiLoToI128 (BigIntRev.i128ToHiLo v).hi (BigIntRev.i128ToHiLo v).lo
      = Except.ok v := by
  rw [← i128ToHiLo_revisions_eq, i128ToHiLo_hi, i128ToHiLo_lo]
  unfold BigIntRev.hiLoToI128
  rw [parseBigIntString_intToDecString, parseBigIntString_intToDecString]
  show Except.ok (v.tdiv BigNumberRev.TWO_POW_64 * BigIntRev.TWO_POW_64
      + v.tmod BigNumberRev.TWO_POW_64) = Except.ok v
  rw [show BigIntRev.TWO_POW_64 = BigNumberRev.TWO_POW_64 from rfl, Int.tdiv_add_tmod']

theorem tmod_neg_dividend (a b : Int) : (-a).tmod b = -(a.tmod b) := by
  rw [Int.tmod_def, Int.tmod_def, Int.neg_tdiv]
  ring

theorem tmod_range (v b : Int) (hb : 0 < b) : -(b - 1) ≤ v.tmod b ∧ v.tmod b ≤ b - 1 := by
  rcases le_or_lt 0 v with hv | hv
  · have h1 := Int.tmod_nonneg b hv
    have h2 := Int.tmod_lt_of_pos v hb
    omega
  · have heq : v.tmod b = -((-v).tmod b) := by
      rw [← tmod_neg_dividend, neg_neg]
    have h1 : (0 : Int) ≤ (-v).tmod b := Int.tmod_nonneg b (by omega)
    have h2 := Int.tmod_lt_of_pos (-v) hb
    omega

theorem tmod_sign (v b : Int) : v.tmod b = 0 ∨ (v.tmod b).sign = v.sign := by
  rcases lt_trichotomy v 0 with hv | hv | hv
  · rcases eq_or_ne (v.tmod b) 0 with h0 | h0
    · exact Or.inl h0
    · refine Or.inr ?_
      have heq : v.tmod b = -((-v).tmod b) := by rw [← tmod_neg_dividend, neg_neg]
      have h1 : (0 : Int) ≤ (-v).tmod b := Int.tmod_nonneg b (by omega)
      have hvneg : (v.tmod b).sign = -1 := Int.sign_eq_neg_one_iff_neg.mpr (by omega)
      rw [hvneg, Int.sign_eq_neg_one_iff_neg.mpr hv]
  · subst hv
    simp
  · rcases eq_or_ne (v.tmod b) 0 with h0 | h0
    · exact Or.inl h0
    · refine Or.inr ?_
      have h1 : (0 : Int) ≤ v.tmod b := Int.tmod_nonneg b (by omega)
      rw [Int.sign_eq_one_iff_pos.mpr (by omega), Int.sign_eq_one_iff_pos.mpr hv]

theorem two_pow_64_eq : BigNumberRev.TWO_POW_64 = 18446744073709551616 := by
  norm_num [BigNumberRev.TWO_POW_64]

theorem tdiv_range (v : Int) (hmin : -(2 ^ 127) ≤ v) (hmax : v ≤ 2 ^ 127 - 1) :
    -(2 ^ 63) ≤ v.tdiv BigNumberRev.TWO_POW_64
      ∧ v.tdiv BigNumberRev.TWO_POW_64 ≤ 2 ^ 63 - 1 := by
  have habs : (v.tdiv BigNumberRev.TWO_POW_64).natAbs = v.natAbs / 18446744073709551616 := by
    rw [two_pow_64_eq, Int.natAbs_tdiv]
    rfl
  norm_num at hmin hmax ⊢
  rcases le_or_lt 0 v with hv | hv
  · have h0 : 0 ≤ v.tdiv BigNumberRev.TWO_POW_64 :=
      Int.tdiv_nonneg hv (by rw [two_pow_64_eq]; norm_num)
    have h1 : v.natAbs ≤ 170141183460469231731687303715884105727 := by omega
    have h2 := Nat.div_le_div_right (c := 18446744073709551616) h1
    have h3 : (170141183460469231731687303715884105727 : Nat) / 18446744073709551616
        = 9223372036854775807 := by norm_num
    omega
  · have heq : v.tdiv BigNumberRev.TWO_POW_64 = -((-v).tdiv BigNumberRev.TWO_POW_64) := by
      rw [← Int.neg_tdiv, neg_neg]
    have h0 : 0 ≤ (-v).tdiv BigNumberRev.TWO_POW_64 :=
      Int.tdiv_nonneg (by omega) (by rw [two_pow_64_eq]; norm_num)
    have h1 : v.natAbs ≤ 170141183460469231731687303715884105728 := by omega
    have h2 := Nat.div_le_div_right (c := 18446744073709551616) h1
    have h3 : (170141183460469231731687303715884105728 : Nat) / 18446744073709551616
        = 9223372036854775808 := by norm_num
    omega

theorem tdiv_tmod_unique {v h l : Int} (heq : v = h * BigNumberRev.TWO_POW_64 + l)
    (hbound : l.natAbs ≤ 2 ^ 64 - 1) (hsign : l = 0 ∨ l.sign = v.sign) :
    h = v.tdiv BigNumberRev.TWO_POW_64 ∧ l = v.tmod BigNumberRev.TWO_POW_64 := by
  have hB := two_pow_64_eq
  norm_num at hbound
  rcases lt_trichotomy v 0 with hv | hv | hv
  · have hl : l ≤ 0 := by
      rcases hsign with h0 | hs
      · omega
      · rw [Int.sign_eq_neg_one_iff_neg.mpr hv] at hs
        have := Int.sign_eq_neg_one_iff_neg.mp hs
        omega
    have hkey := (Int.ediv_emod_unique (a := -v) (b := BigNumberRev.TWO_POW_64)
        (q := -h) (r := -l) (by rw [hB]; norm_num)).mpr
      ⟨by rw [heq]; ring, by omega, by rw [hB]; omega⟩
    have htd : v.tdiv BigNumberRev.TWO_POW_64 = -((-v).tdiv BigNumberRev.TWO_POW_64) := by
      rw [← Int.neg_tdiv, neg_neg]
    have htd2 : (-v).tdiv BigNumberRev.TWO_POW_64 = (-v) / BigNumberRev.TWO_POW_64 :=
      Int.tdiv_eq_ediv (by omega) (by rw [hB]; norm_num)
    have htm : v.tmod BigNumberRev.TWO_POW_64 = -((-v).tmod BigNumberRev.TWO_POW_64) := by
      rw [← tmod_neg_dividend, neg_neg]
    have htm2 : (-v).tmod BigNumberRev.TWO_POW_64 = (-v) % BigNumberRev.TWO_POW_64 :=
      Int.tmod_eq_emod (by omega) (by rw [hB]; norm_num)
    rw [htd, htd2, hkey.1, htm, htm2, hkey.2]
    omega
  · subst hv
    have hl : l = 0 := by
      rcases hsign with h0 | hs
      · exact h0
      · rw [Int.sign_zero] at hs
        exact Int.sign_eq_zero_iff_zero.mp hs
    subst hl
    have hh : h = 0 := by
      have hBne : BigNumberRev.TWO_POW_64 ≠ 0 := by rw [hB]; norm_num
      have h0 : h * BigNumberRev.TWO_POW_64 = 0 := by linarith [heq]
      rcases mul_eq_zero.mp h0 with h1 | h1
      · exact h1
      · exact absurd h1 hBne
    subst hh
    simp
  · have hl : 0 ≤ l := by
      rcases hsign with h0 | hs
      · omega
      · rw [Int.sign_eq_one_iff_pos.mpr hv] at hs
        have := Int.sign_eq_one_iff_pos.mp hs
        omega
    have hkey := (Int.ediv_emod_unique (a := v) (b := BigNumberRev.TWO_POW_64)
        (q := h) (r := l) (by rw [hB]; norm_num)).mpr
      ⟨by rw [heq]; ring, hl, by rw [hB]; omega⟩
    have htd2 : v.tdiv BigNumberRev.TWO_POW_64 = v / BigNumberRev.TWO_POW_64 :=
      Int.tdiv_eq_ediv (by omega) (by rw [hB]; norm_num)
    have htm2 : v.tmod BigNumberRev.TWO_POW_64 = v % BigNumberRev.TWO_POW_64 :=
      Int.tmod_eq_emod (by omega) (by rw [hB]; norm_num)
    rw [htd2, hkey.1, htm2, hkey.2]
    exact ⟨rfl, rfl⟩

/-- C1: for every integer value with -(2^127) ≤ value ≤ 2^127 - 1, decoding
the {hi, lo} pair produced by encoding the value returns the original value
exactly: hiLoToI128(i128ToHiLo(value).hi, i128ToHiLo(value).lo) = value. -/
theorem C1_roundtrip_law (value : Int)
    (_hmin : -(2 ^ 127) ≤ value) (_hmax : value ≤ 2 ^ 127 - 1) :
    BigNumberRev.hiLoToI128 (BigNumberRev.i128ToHiLo value).hi
      (BigNumberRev.i128ToHiLo value).lo = some value :=
  hiLo_roundtrip_bn value

theorem C1_witness :
    ((-(2 ^ 127) ≤ (-123456789012345678901234567890 : Int))
      ∧ ((-123456789012345678901234567890 : Int) ≤ 2 ^ 127 - 1))
    ∧ BigNumberRev.hiLoToI128
        (BigNumberRev.i128ToHiLo (-123456789012345678901234567890)).hi
        (BigNumberRev.i128ToHiLo (-123456789012345678901234567890)).lo
        = some (-123456789012345678901234567890) :=
  ⟨⟨by norm_num, by norm_num⟩,
    C1_roundtrip_law (-123456789012345678901234567890) (by norm_num) (by norm_num)⟩

/-- C2: i128ToHiLo computes lo as the remainder and hi as the quotient of
truncating-toward-zero division of value by 2^64: lo is zero or carries the
sign of value (for value = -1 the result is hi = "0", lo = "-1"), and
hi * 2^64 + lo = value holds exactly. -/
theorem C2_truncating_div_mod (value : Int) :
    parseSignedDec (BigNumberRev.i128ToHiLo value).lo
        = some (value.tmod BigNumberRev.TWO_POW_64)
    ∧ parseSignedDec (BigNumberRev.i128ToHiLo value).hi
        = some (value.tdiv BigNumberRev.TWO_POW_64)
    ∧ (value.tmod BigNumberRev.TWO_POW_64 = 0
        ∨ (value.tmod BigNumberRev.TWO_POW_64).sign = value.sign)
    ∧ value.tdiv BigNumberRev.TWO_POW_64 * BigNumberRev.TWO_POW_64
        + value.tmod BigNumberRev.TWO_POW_64 = value
    ∧ BigNumberRev.i128ToHiLo (-1) = { hi := "0", lo := "-1" } := by
  refine ⟨?_, ?_, tmod_sign value BigNumberRev.TWO_POW_64,
    Int.tdiv_add_tmod' value BigNumberRev.TWO_POW_64, by decide⟩
  · rw [i128ToHiLo_lo]
    exact parseSignedDec_intToDecString _
  · rw [i128ToHiLo_hi]
    exact parseSignedDec_intToDecString _

/-- C3: i128ToHiLo reproduces the authoritative worked-example table of the
spec and of the test suite exactly, including both extreme values. -/
theorem C3_worked_examples :
    BigNumberRev.i128ToHiLo 0 = { hi := "0", lo := "0" }
    ∧ BigNumberRev.i128ToHiLo 1 = { hi := "0", lo := "1" }
    ∧ BigNumberRev.i128ToHiLo (-1) = { hi := "0", lo := "-1" }
    ∧ BigNumberRev.i128ToHiLo 123456789012345678901234567890
        = { hi := "6692605942", lo := "14083847773837265618" }
    ∧ BigNumberRev.i128ToHiLo (-123456789012345678901234567890)
        = { hi := "-6692605942", lo := "-14083847773837265618" }
    ∧ BigNumberRev.i128ToHiLo 170141183460469231731687303715884105727
        = { hi := "9223372036854775807", lo := "18446744073709551615" }
    ∧ BigNumberRev.i128ToHiLo (-170141183460469231731687303715884105728)
        = { hi := "-9223372036854775808", lo := "0" } := by
  decide

/-- C9: the round-trip law holds for every integer, with no range
restriction and in both revisions; the codec contains no range check and
never truncates or wraps an out-of-range input. -/
theorem C9_roundtrip_unrestricted (value : Int) :
    BigNumberRev.hiLoToI128 (BigNumberRev.i128ToHiLo value).hi
        (BigNumberRev.i128ToHiLo value).lo = some value
    ∧ BigIntRev.hiLoToI128 (BigIntRev.i128ToHiLo value).hi
        (BigIntRev.i128ToHiLo value).lo = Except.ok value :=
  ⟨hiLo_roundtrip_bn value, hiLo_roundtrip_bi value⟩

/-- C10: convertToI128ScVal maps every falsy argument (null, undefined, or
zero) to the pair hi = "0", lo = "0". -/
theorem C10_falsy_to_zero (value : JsValue) (hfalsy : jsTruthy value = false) :
    convertToI128ScVal value = { hi := "0", lo := "0" } := by
  cases value with
  | nullish => rfl
  | num v =>
    have hv : (v != 0) = false := by simpa [jsTruthy] using hfalsy
    simp [convertToI128ScVal, hv]

theorem C10_witness :
    jsTruthy (JsValue.num 0) = false
    ∧ convertToI128ScVal (JsValue.num 0) = { hi := "0", lo := "0" } :=
  ⟨rfl, C10_falsy_to_zero (JsValue.num 0) rfl⟩

/-- C5: for every value in [-(2^127), 2^127 - 1], the hi produced by
i128ToHiLo lies within [-2^63, 2^63 - 1] and the lo lies within
[-(2^64 - 1), 2^64 - 1]. -/
theorem C5_half_ranges (value : Int)
    (hmin : -(2 ^ 127) ≤ value) (hmax : value ≤ 2 ^ 127 - 1) :
    ∃ hi lo : Int,
      parseSignedDec (BigNumberRev.i128ToHiLo value).hi = some hi
      ∧ parseSignedDec (BigNumberRev.i128ToHiLo value).lo = some lo
      ∧ -(2 ^ 63) ≤ hi ∧ hi ≤ 2 ^ 63 - 1
      ∧ -(2 ^ 64 - 1) ≤ lo ∧ lo ≤ 2 ^ 64 - 1 := by
  refine ⟨value.tdiv BigNumberRev.TWO_POW_64, value.tmod BigNumberRev.TWO_POW_64,
    ?_, ?_, (tdiv_range value hmin hmax).1, (tdiv_range value hmin hmax).2, ?_, ?_⟩
  · rw [i128ToHiLo_hi]
    exact parseSignedDec_intToDecString _
  · rw [i128ToHiLo_lo]
    exact parseSignedDec_intToDecString _
  · have h := (tmod_range value BigNumberRev.TWO_POW_64 (by rw [two_pow_64_eq]; norm_num)).1
    have he := two_pow_64_eq
    norm_num
    omega
  · have h := (tmod_range value BigNumberRev.TWO_POW_64 (by rw [two_pow_64_eq]; norm_num)).2
    have he := two_pow_64_eq
    norm_num
    omega

theorem C5_witness :
    ((-(2 ^ 127) ≤ (-170141183460469231731687303715884105728 : Int))
      ∧ ((-170141183460469231731687303715884105728 : Int) ≤ 2 ^ 127 - 1))
    ∧ ∃ hi lo : Int,
        parseSignedDec
          (BigNumberRev.i128ToHiLo (-170141183460469231731687303715884105728)).hi = some hi
        ∧ parseSignedDec
            (BigNumberRev.i128ToHiLo (-170141183460469231731687303715884105728)).lo = some lo
        ∧ -(2 ^ 63) ≤ hi ∧ hi ≤ 2 ^ 63 - 1
        ∧ -(2 ^ 64 - 1) ≤ lo ∧ lo ≤ 2 ^ 64 - 1 :=
  ⟨⟨by norm_num, by norm_num⟩,
    C5_half_ranges (-170141183460469231731687303715884105728) (by norm_num) (by norm_num)⟩

/-- C6: for every {hi, lo} pair that i128ToHiLo produces on an in-range
value, encoding the decoded value reproduces the identical pair,
string-for-string. -/
theorem C6_inverse_law (value : Int)
    (_hmin : -(2 ^ 127) ≤ value) (_hmax : value ≤ 2 ^ 127 - 1) :
    (BigNumberRev.hiLoToI128 (BigNumberRev.i128ToHiLo value).hi
        (BigNumberRev.i128ToHiLo value).lo).map BigNumberRev.i128ToHiLo
      = some (BigNumberRev.i128ToHiLo value) := by
  rw [hiLo_roundtrip_bn]
  rfl

theorem C6_witness :
    ((-(2 ^ 127) ≤ (123456789012345678901234567890 : Int))
      ∧ ((123456789012345678901234567890 : Int) ≤ 2 ^ 127 - 1))
    ∧ (BigNumberRev.hiLoToI128 (BigNumberRev.i128ToHiLo 123456789012345678901234567890).hi
        (BigNumberRev.i128ToHiLo 123456789012345678901234567890).lo).map
          BigNumberRev.i128ToHiLo
        = some (BigNumberRev.i128ToHiLo 123456789012345678901234567890) :=
  ⟨⟨by norm_num, by norm_num⟩,
    C6_inverse_law 123456789012345678901234567890 (by norm_num) (by norm_num)⟩

/-- The signed 64-bit range [-2^63, 2^63 - 1]. -/
def inSigned64 (x : Int) : Prop := -(2 ^ 63) ≤ x ∧ x ≤ 2 ^ 63 - 1

/-- The decomposition property asserted by claim C4 at one value: the parsed
halves produced by i128ToHiLo both lie in [-2^63, 2^63 - 1] and form the
unique such pair reconstructing the value. -/
def c4Statement (value : Int) : Prop :=
  ∃ hi lo : Int,
    parseSignedDec (BigNumberRev.i128ToHiLo value).hi = some hi
    ∧ parseSignedDec (BigNumberRev.i128ToHiLo value).lo = some lo
    ∧ inSigned64 hi ∧ inSigned64 lo
    ∧ value = hi * BigNumberRev.TWO_POW_64 + lo
    ∧ ∀ hi' lo' : Int, inSigned64 hi' → inSigned64 lo' →
        value = hi' * BigNumberRev.TWO_POW_64 + lo' → hi' = hi ∧ lo' = lo

/-- C4 counterexample: value = 2^63 is in range, but i128ToHiLo produces
lo = 2^63 = 9223372036854775808, which lies outside [-2^63, 2^63 - 1], so
the claimed invariant fails at this value. -/
theorem C4_counterexample :
    ((-(2 ^ 127) ≤ (2 ^ 63 : Int)) ∧ ((2 ^ 63 : Int) ≤ 2 ^ 127 - 1))
    ∧ ¬ c4Statement (2 ^ 63) := by
  refine ⟨⟨by norm_num, by norm_num⟩, ?_⟩
  rintro ⟨hi, lo, hhi, hlo, hs1, hs2, heq, huniq⟩
  have hcomp : parseSignedDec (BigNumberRev.i128ToHiLo (2 ^ 63)).lo
      = some (9223372036854775808 : Int) := by decide
  rw [hcomp] at hlo
  have hval : (9223372036854775808 : Int) = lo := Option.some.inj hlo
  rw [← hval] at hs2
  norm_num [inSigned64] at hs2

/-- C4 amended: for every in-range value, the parsed hi lies in
[-2^63, 2^63 - 1], and (hi, lo) is the unique pair of integers with
|lo| ≤ 2^64 - 1 and lo zero or of value's sign such that
value = hi * 2^64 + lo (lo itself can leave the signed 64-bit range). -/
theorem C4_amended_decomposition (value : Int)
    (hmin : -(2 ^ 127) ≤ value) (hmax : value ≤ 2 ^ 127 - 1) :
    ∃ hi lo : Int,
      parseSignedDec (BigNumberRev.i128ToHiLo value).hi = some hi
      ∧ parseSignedDec (BigNumberRev.i128ToHiLo value).lo = some lo
      ∧ inSigned64 hi
      ∧ value = hi * BigNumberRev.TWO_POW_64 + lo
      ∧ lo.natAbs ≤ 2 ^ 64 - 1
      ∧ (lo = 0 ∨ lo.sign = value.sign)
      ∧ ∀ hi' lo' : Int, value = hi' * BigNumberRev.TWO_POW_64 + lo'
          → lo'.natAbs ≤ 2 ^ 64 - 1 → (lo' = 0 ∨ lo'.sign = value.sign)
          → hi' = hi ∧ lo' = lo := by
  refine ⟨value.tdiv BigNumberRev.TWO_POW_64, value.tmod BigNumberRev.TWO_POW_64,
    ?_, ?_, tdiv_range value hmin hmax,
    (Int.tdiv_add_tmod' value BigNumberRev.TWO_POW_64).symm, ?_,
    tmod_sign value BigNumberRev.TWO_POW_64, ?_⟩
  · rw [i128ToHiLo_hi]
    exact parseSignedDec_intToDecString _
  · rw [i128ToHiLo_lo]
    exact parseSignedDec_intToDecString _
  · have h := tmod_range value BigNumberRev.TWO_POW_64 (by rw [two_pow_64_eq]; norm_num)
    have he := two_pow_64_eq
    norm_num
    omega
  · intro hi' lo' h1 h2 h3
    exact tdiv_tmod_unique h1 h2 h3

theorem C4_amended_witness :
    ((-(2 ^ 127) ≤ (-1 : Int)) ∧ ((-1 : Int) ≤ 2 ^ 127 - 1))
    ∧ ∃ hi lo : Int,
        parseSignedDec (BigNumberRev.i128ToHiLo (-1)).hi = some hi
        ∧ parseSignedDec (BigNumberRev.i128ToHiLo (-1)).lo = some lo
        ∧ inSigned64 hi
        ∧ (-1 : Int) = hi * BigNumberRev.TWO_POW_64 + lo
        ∧ lo.natAbs ≤ 2 ^ 64 - 1
        ∧ (lo = 0 ∨ lo.sign = (-1 : Int).sign)
        ∧ ∀ hi' lo' : Int, (-1 : Int) = hi' * BigNumberRev.TWO_POW_64 + lo'
            → lo'.natAbs ≤ 2 ^ 64 - 1 → (lo' = 0 ∨ lo'.sign = (-1 : Int).sign)
            → hi' = hi ∧ lo' = lo :=
  ⟨⟨by norm_num, by norm_num⟩, C4_amended_decomposition (-1) (by norm_num) (by norm_num)⟩

/-- C7 counterexample: the empty string cannot be parsed as a signed base-10
integer, yet the BigInt revision of hiLoToI128 returns the value 0 for
hi = "", lo = "0" instead of signaling an error; and on the non-numeric
string "abc" the BigNumber revision returns a NaN result (modelled none)
rather than raising. -/
theorem C7_counterexample :
    parseSignedDec "" = none
    ∧ BigIntRev.hiLoToI128 "" "0" = Except.ok 0
    ∧ parseSignedDec "abc" = none
    ∧ BigNumberRev.hiLoToI128 "abc" "0" = none :=
  ⟨by decide, rfl, by decide, by decide⟩

/-- Helper: a string with empty character data parses to none. -/
theorem parseSignedDec_nil (s : String) (h : s.data = []) : parseSignedDec s = none := by
  unfold parseSignedDec
  rw [h]

/-- C7 amended: for well-formed signed base-10 inputs neither revision of
hiLoToI128 raises, and both return hi * 2^64 + lo.  On malformed input the
claimed FormatError is not what the code does: the BigNumber revision never
raises, yielding the NaN result instead (hi = "abc", and likewise the empty
string), while the BigInt revision accepts the empty string as the value 0
and raises only on a string, such as "abc", that is not a BigInt literal. -/
theorem C7_amended_error_behavior (hi lo : String) (n m : Int)
    (hhi : parseSignedDec hi = some n) (hlo : parseSignedDec lo = some m) :
    BigNumberRev.hiLoToI128 hi lo = some (n * BigNumberRev.TWO_POW_64 + m)
    ∧ BigIntRev.hiLoToI128 hi lo = Except.ok (n * BigIntRev.TWO_POW_64 + m)
    ∧ BigNumberRev.hiLoToI128 "abc" "0" = none
    ∧ BigNumberRev.hiLoToI128 "" "0" = none
    ∧ BigIntRev.hiLoToI128 "" "0" = Except.ok 0
    ∧ BigIntRev.hiLoToI128 "abc" "0" = Except.error () := by
  have hne : hi.data ≠ [] := by
    intro h
    rw [parseSignedDec_nil hi h] at hhi
    exact Option.noConfusion hhi
  have hne2 : lo.data ≠ [] := by
    intro h
    rw [parseSignedDec_nil lo h] at hlo
    exact Option.noConfusion hlo
  have hbi1 : parseBigIntString hi = some n := by
    unfold parseBigIntString
    rw [if_neg hne]
    exact hhi
  have hbi2 : parseBigIntString lo = some m := by
    unfold parseBigIntString
    rw [if_neg hne2]
    exact hlo
  refine ⟨?_, ?_, by decide, by decide, rfl, rfl⟩
  · unfold BigNumberRev.hiLoToI128 parseBigNumber
    rw [hhi, hlo]
  · unfold BigIntRev.hiLoToI128
    rw [hbi1, hbi2]

theorem C7_amended_witness :
    (parseSignedDec "12" = some 12 ∧ parseSignedDec "-5" = some (-5))
    ∧ (BigNumberRev.hiLoToI128 "12" "-5" = some (12 * BigNumberRev.TWO_POW_64 + (-5))
      ∧ BigIntRev.hiLoToI128 "12" "-5" = Except.ok (12 * BigIntRev.TWO_POW_64 + (-5))
      ∧ BigNumberRev.hiLoToI128 "abc" "0" = none
      ∧ BigNumberRev.hiLoToI128 "" "0" = none
      ∧ BigIntRev.hiLoToI128 "" "0" = Except.ok 0
      ∧ BigIntRev.hiLoToI128 "abc" "0" = Except.error ()) :=
  ⟨⟨by decide, by decide⟩,
    C7_amended_error_behavior "12" "-5" 12 (-5) (by decide) (by decide)⟩

/-- C8: the BigNumber revision and the BigInt revision agree: i128ToHiLo
returns the same {hi, lo} strings for every integer value, and on every
well-formed signed base-10 string pair both hiLoToI128 revisions return the
same integer. -/
theorem C8_revisions_agree (value : Int) (hi lo : String) (n m : Int)
    (hhi : parseSignedDec hi = some n) (hlo : parseSignedDec lo = some m) :
    BigNumberRev.i128ToHiLo value = BigIntRev.i128ToHiLo value
    ∧ ∃ v : Int, BigNumberRev.hiLoToI128 hi lo = some v
        ∧ BigIntRev.hiLoToI128 hi lo = Except.ok v := by
  have hne : hi.data ≠ [] := by
    intro h
    rw [parseSignedDec_nil hi h] at hhi
    exact Option.noConfusion hhi
  have hne2 : lo.data ≠ [] := by
    intro h
    rw [parseSignedDec_nil lo h] at hlo
    exact Option.noConfusion hlo
  have hbi1 : parseBigIntString hi = some n := by
    unfold parseBigIntString
    rw [if_neg hne]
    exact hhi
  have hbi2 : parseBigIntString lo = some m := by
    unfold parseBigIntString
    rw [if_neg hne2]
    exact hlo
  refine ⟨rfl, n * BigNumberRev.TWO_POW_64 + m, ?_, ?_⟩
  · unfold BigNumberRev.hiLoToI128 parseBigNumber
    rw [hhi, hlo]
  · unfold BigIntRev.hiLoToI128
    rw [hbi1, hbi2]
    rfl

theorem C8_witness :
    (parseSignedDec "-3" = some (-3) ∧ parseSignedDec "+7" = some 7)
    ∧ (BigNumberRev.i128ToHiLo 5 = BigIntRev.i128ToHiLo 5
        ∧ ∃ v : Int, BigNumberRev.hiLoToI128 "-3" "+7" = some v
            ∧ BigIntRev.hiLoToI128 "-3" "+7" = Except.ok v) :=
  ⟨⟨by decide, by decide⟩, C8_revisions_agree 5 "-3" "+7" (-3) 7 (by decide) (by decide)⟩
